import Mathlib

/-!
Verification development for the geofiles scraper repository.

The embedding models the crawl-and-sync engine of
`src/geofiles_scraper/scrape.py` (allowlist construction `load_allowed_ids`,
matching `is_allowed`, artifact transfer `upload_to_s3`, page-link
classification `process`, and the `scraper_main` page loop), together with
the five-strategy page-advance cascade of
`src/scraping tool/geofiles_scraper_local/scrape_local.py`.

Strings are modelled as lists of characters.  External collaborators
(the HTML parser, `urllib.parse.urljoin`, the network and the S3 client)
appear as parameters: anchor lists stand for parsed markup, resolver
functions stand for `urljoin`, and a `NetEnv` record supplies the outcome
of each network call (S3 head probe, artifact download, external page
fetch).  The S3 bucket is a list of key/body pairs.
-/

namespace GeofilesScraper

abbrev Str := List Char

def strL (s : String) : Str := s.toList

/-- ASCII alphanumeric test, the character class `[A-Za-z0-9]` used by the
lookbehind/lookahead of the compiled allowlist patterns. -/
def isAlnumAscii (c : Char) : Bool :=
  (decide ('A' ≤ c) && decide (c ≤ 'Z')) ||
  (decide ('a' ≤ c) && decide (c ≤ 'z')) ||
  (decide ('0' ≤ c) && decide (c ≤ '9'))

def lowerStr (s : Str) : Str := s.map Char.toLower

/-- Is the first list a prefix of the second (character-exact)? -/
def isPrefixL : Str → Str → Bool
  | [], _ => true
  | _ :: _, [] => false
  | a :: as, b :: bs => if a = b then isPrefixL as bs else false

def startsWithL (pre s : Str) : Bool := isPrefixL pre s

def endsWithL (suf s : Str) : Bool := isPrefixL suf.reverse s.reverse

/-- Substring containment, modelling Python `pat in s`. -/
def containsSub : Str → Str → Bool
  | pat, [] => isPrefixL pat []
  | pat, c :: rest => isPrefixL pat (c :: rest) || containsSub pat rest

/-- Python `str.split(sep)` for a single character separator. -/
def splitOnChar (sep : Char) : Str → List Str
  | [] => [[]]
  | c :: rest =>
    match splitOnChar sep rest with
    | [] => [[]]
    | seg :: segs => if c = sep then [] :: seg :: segs else (c :: seg) :: segs

/-- `os.path.basename`: the final `/`-delimited segment of a path or URL. -/
def basenameAux (acc : Str) : Str → Str
  | [] => acc.reverse
  | c :: rest => if c = '/' then basenameAux [] rest else basenameAux (c :: acc) rest

def basename (s : Str) : Str := basenameAux [] s

/-- Python `s.rstrip('/')`: drop every trailing slash. -/
def rstripSlash (s : Str) : Str := (s.reverse.dropWhile (fun c => c == '/')).reverse

-- Configuration constants of scrape.py.
def EXTERNAL_PREFIX_STR : Str :=
  strL "https://www.gov.nl.ca/iet/mines-geoscience-reports-maps-docs"

def SKIP_KEYWORDS : List Str := [strL "map", strL "research"]

def httpStr : Str := strL "http"

/-- Destination key `f"{FOLDER_PREFIX}/{filename}"` with
`FOLDER_PREFIX = "Textract/input"`. -/
def destKey (filename : Str) : Str := strL "Textract/input/" ++ filename

/-- `any(kw in filename.lower() for kw in SKIP_KEYWORDS)` from `upload_to_s3`. -/
def skipName (filename : Str) : Bool :=
  SKIP_KEYWORDS.any (fun kw => containsSub kw (lowerStr filename))

/-! ## The identifier allowlist

`load_allowed_ids` (scrape.py lines 82-93) derives, for each raw identifier,
the identifier itself plus its normalized variants; `is_allowed` tests the
compiled pattern `(?<![A-Za-z0-9])id(?![A-Za-z0-9])` (case-insensitive,
`re.search`) against the URL basename and the full URL. -/

def removeSlash (rid : Str) : Str := rid.filter (fun c => !(c == '/'))

def slashToUnderscore (rid : Str) : Str :=
  rid.map (fun c => if c = '/' then '_' else c)

def variantsOf (rid : Str) : List Str :=
  rid ::
    (if rid.contains '/' then
      slashToUnderscore rid :: removeSlash rid ::
        (match splitOnChar '/' rid with
         | [p, _, s] => [p ++ '_' :: s, p ++ s]
         | _ => [])
     else [])

def load_allowed_ids (raw : List Str) : List Str := raw.flatMap variantsOf

/-- Boundary admissibility of the character adjacent to a pattern occurrence:
the regex lookarounds `(?<![A-Za-z0-9])` and `(?![A-Za-z0-9])`. -/
def boundaryOk : Option Char → Bool
  | none => true
  | some c => !isAlnumAscii c

/-- Does the (already lowercased) pattern `idl` occur at the head of `s`
with admissible boundaries, `prev` being the character just before `s`? -/
def hereMatch (idl : Str) (prev : Option Char) (s : Str) : Bool :=
  boundaryOk prev && isPrefixL idl (lowerStr s) && boundaryOk (s.drop idl.length).head?

def searchFrom (idl : Str) : Option Char → Str → Bool
  | prev, [] => hereMatch idl prev []
  | prev, c :: rest => hereMatch idl prev (c :: rest) || searchFrom idl (some c) rest

/-- `re.search` of the compiled boundary-anchored case-insensitive pattern
for identifier `id0` in string `s`. -/
def boundarySearch (id0 s : Str) : Bool := searchFrom (lowerStr id0) none s

/-- `is_allowed` (scrape.py lines 103-105). -/
def is_allowed (pats : List Str) (url : Str) : Bool :=
  pats.any (fun p => boundarySearch p (basename url) || boundarySearch p url)

/-! ## The artifact sink: `upload_to_s3` -/

inductive TransferResult
  | Skipped
  | AlreadyExists
  | Transferred
  | Failed
deriving DecidableEq

inductive NetEvent
  | headProbe : Str → NetEvent
  | download : Str → NetEvent
  | uploadPut : Str → NetEvent
  | extFetch : Str → NetEvent
deriving DecidableEq

/-- The S3 bucket contents: key/body pairs. -/
abbrev Store := List (Str × Str)

def lookupS (k : Str) : Store → Option Str
  | [] => none
  | (a, b) :: t => if a = k then some b else lookupS k t

def keyCount (k : Str) : Store → Nat
  | [] => 0
  | (a, _) :: t => (if a = k then 1 else 0) + keyCount k t

/-- Outcomes of the network calls issued by one run: S3 head probe
(`true` = `ClientError` with a non-404 code), artifact download
(`none` = a `requests` exception), external page fetch (`none` = a fetch
error; otherwise the page's anchor hrefs). -/
structure NetEnv where
  headErr : Str → Bool
  download : Str → Option Str
  extPage : Str → Option (List Str)

/-- `upload_to_s3` (scrape.py lines 107-130).  Returns the result (or
`none` when an uncaught exception propagates out of the call), the new
bucket contents, and the network calls performed. -/
def upload_to_s3 (pats : List Str) (env : NetEnv) (st : Store) (url : Str) :
    Option TransferResult × Store × List NetEvent :=
  let filename := basename url
  if skipName filename then (some TransferResult.Skipped, st, [])
  else if is_allowed pats url then
    let key := destKey filename
    if env.headErr key then
      (some TransferResult.Failed, st, [NetEvent.headProbe key])
    else
      match lookupS key st with
      | some _ => (some TransferResult.AlreadyExists, st, [NetEvent.headProbe key])
      | none =>
        match env.download url with
        | none => (none, st, [NetEvent.headProbe key, NetEvent.download url])
        | some body =>
          (some TransferResult.Transferred, (key, body) :: st,
            [NetEvent.headProbe key, NetEvent.download url, NetEvent.uploadPut key])
  else (some TransferResult.Skipped, st, [])

/-! ## Link classification and page processing: `process`

`process` (scrape.py lines 132-162) walks the anchors of a listing page.
An anchor resolving to a `.pdf`/`.zip` URL is a direct artifact; otherwise,
an anchor starting with the external prefix and passing the allowlist is an
external detail page, whose own anchors are scanned for artifact extensions
only.  The HTML parsing is external: a page is given by its anchor `href`
list, and `urljoin` by resolver functions. -/

def fullOf (res : Str → Str) (href : Str) : Str :=
  if startsWithL httpStr href then href else res href

def fullExtOf (extRes : Str → Str → Str) (base link : Str) : Str :=
  if startsWithL httpStr link then link else extRes base link

/-- `full.lower().endswith(('.pdf', '.zip'))`. -/
def artifactExt (u : Str) : Bool :=
  endsWithL (strL ".pdf") (lowerStr u) || endsWithL (strL ".zip") (lowerStr u)

/-- Result of scanning one external detail page's anchors. -/
structure EOut where
  store : Store
  events : List NetEvent
  gotFiles : Bool
  crashed : Bool

/-- The inner loop of the external-detail branch of `process` (scrape.py
lines 149-154): only the artifact-extension rule is applied to the external
page's anchors.  `crashed` records an exception escaping `upload_to_s3`
(it is caught by the surrounding `except` in `process`). -/
def extLoop (pats : List Str) (env : NetEnv) (extRes : Str → Str → Str)
    (base : Str) (st : Store) (got : Bool) : List Str → EOut
  | [] => ⟨st, [], got, false⟩
  | link :: rest =>
    let u := fullExtOf extRes base link
    if artifactExt u then
      let ur := upload_to_s3 pats env st u
      if ur.1.isNone then ⟨ur.2.1, ur.2.2, got, true⟩
      else
        let r := extLoop pats env extRes base ur.2.1 true rest
        ⟨r.store, ur.2.2 ++ r.events, r.gotFiles, r.crashed⟩
    else extLoop pats env extRes base st got rest

/-- The external-detail branch of `process` (scrape.py lines 143-162):
fetch the external page, scan its anchors, and if no artifact-extension
link was found, record one missing-log entry named by the page URL's
trailing path segment (`record_missing`, lines 45-48).  Errors, including
a failed fetch and exceptions from inner uploads, are caught here, so the
missing entry is skipped but nothing propagates.  Returns the bucket, the
missing-log entries appended, and the network events. -/
def handleExternal (pats : List Str) (env : NetEnv) (extRes : Str → Str → Str)
    (st : Store) (full : Str) : Store × List Str × List NetEvent :=
  match env.extPage full with
  | none => (st, [], [NetEvent.extFetch full])
  | some anchors =>
    let r := extLoop pats env extRes full st false anchors
    if r.crashed then (r.store, [], NetEvent.extFetch full :: r.events)
    else if r.gotFiles then (r.store, [], NetEvent.extFetch full :: r.events)
    else (r.store, [basename (rstripSlash full)], NetEvent.extFetch full :: r.events)

/-- Result of `process` on one page's anchors. -/
structure POut where
  store : Store
  missing : List Str
  events : List NetEvent
  crashed : Bool

/-- `process` (scrape.py lines 132-162) over the anchors of a listing
page.  An exception escaping `upload_to_s3` on a direct artifact is not
caught: `crashed` is set and the remaining anchors are not processed. -/
def process (pats : List Str) (env : NetEnv) (res : Str → Str)
    (extRes : Str → Str → Str) (st : Store) : List Str → POut
  | [] => ⟨st, [], [], false⟩
  | href :: rest =>
    let full := fullOf res href
    if artifactExt full then
      let ur := upload_to_s3 pats env st full
      if ur.1.isNone then ⟨ur.2.1, [], ur.2.2, true⟩
      else
        let r := process pats env res extRes ur.2.1 rest
        ⟨r.store, r.missing, ur.2.2 ++ r.events, r.crashed⟩
    else if startsWithL EXTERNAL_PREFIX_STR full && is_allowed pats full then
      let h := handleExternal pats env extRes st full
      let r := process pats env res extRes h.1 rest
      ⟨r.store, h.2.1 ++ r.missing, h.2.2 ++ r.events, r.crashed⟩
    else process pats env res extRes st rest

/-! ## The page-advance fallback cascade

`scrape_local.py` lines 199-260: to reach page `i+1` the controller tries,
in order, (1) `goPage` evaluation, (2) navigation to the next-control's
href, (3) clicking the next control, (4) reload then `goPage`, (5) browser
restart, search resubmission, then `goPage`.  Strategies 2 and 3 query for
the anchor inside a `try` block: an exception is caught and logged, but an
absent anchor simply falls through to the next strategy with no log. -/

inductive TryOut
  | succ
  | err
  | noAnchor
deriving DecidableEq

/-- Map a success Bool (for the strategies without an anchor lookup)
into a `TryOut`. -/
def b2t (b : Bool) : TryOut := if b then TryOut.succ else TryOut.err

def outsOf (o1 : Bool) (o2 o3 : TryOut) (o4 o5 : Bool) : List TryOut :=
  [b2t o1, o2, o3, b2t o4, b2t o5]

def cascadeStep5 (o5 : Bool) (att logs : List Nat) : Bool × List Nat × List Nat :=
  if o5 then (true, att ++ [5], logs) else (false, att ++ [5], logs ++ [5])

def cascadeStep4 (o4 o5 : Bool) (att logs : List Nat) : Bool × List Nat × List Nat :=
  if o4 then (true, att ++ [4], logs) else cascadeStep5 o5 (att ++ [4]) (logs ++ [4])

def cascadeStep3 (o3 : TryOut) (o4 o5 : Bool) (att logs : List Nat) :
    Bool × List Nat × List Nat :=
  match o3 with
  | TryOut.succ => (true, att ++ [3], logs)
  | TryOut.err => cascadeStep4 o4 o5 (att ++ [3]) (logs ++ [3])
  | TryOut.noAnchor => cascadeStep4 o4 o5 (att ++ [3]) logs

/-- The advance cascade for one target page.  Returns whether some
strategy succeeded, the ordered list of strategies attempted, and the
ordered list of strategies whose failure was logged. -/
def advanceCascade (o1 : Bool) (o2 o3 : TryOut) (o4 o5 : Bool) :
    Bool × List Nat × List Nat :=
  if o1 then (true, [1], [])
  else
    match o2 with
    | TryOut.succ => (true, [1, 2], [1])
    | TryOut.err => cascadeStep3 o3 o4 o5 [1, 2] [1, 2]
    | TryOut.noAnchor => cascadeStep3 o3 o4 o5 [1, 2] [1]

def advanceCascadeT (t : Bool × TryOut × TryOut × Bool × Bool) :
    Bool × List Nat × List Nat :=
  advanceCascade t.1 t.2.1 t.2.2.1 t.2.2.2.1 t.2.2.2.2

/-! ## The scrape loop: `scraper_main` -/

/-- Total-page discovery (scrape.py lines 205-210): the page number encoded
by the last-page control's `goPage` href, or 1 when the control is absent. -/
def totalPages : Option Nat → Nat
  | some n => n
  | none => 1

inductive RunEvent
  | pageProcessed : Nat → RunEvent
  | cursorSaved : Nat → RunEvent
  | runCrashed : Nat → RunEvent
deriving DecidableEq

structure CrawlCfg where
  nav : Nat → Bool × TryOut × TryOut × Bool × Bool
  pageAnchors : Nat → List Str
  env : NetEnv
  resolve : Str → Str
  extResolve : Str → Str → Str

structure RunState where
  store : Store
  missing : List Str
  events : List RunEvent
  saves : List Nat
  crashed : Bool
  aborted : Bool
  abortTarget : Option Nat
deriving DecidableEq

def initState : RunState := ⟨[], [], [], [], false, false, none⟩

/-- The page loop of `scraper_main` (scrape.py lines 214-264, cascade from
scrape_local.py lines 199-260), driven by fuel equal to the number of pages
left.  Each iteration processes page `i` (`process` on the fetched
anchors), then writes the progress cursor (`resume.txt`), then, when
`i < total`, runs the advance cascade for `i+1`; cascade exhaustion stops
the loop with the abort target recorded.  An exception escaping `process`
stops the run before the cursor write. -/
def runPages (pats : List Str) (cfg : CrawlCfg) (total : Nat) :
    RunState → Nat → Nat → RunState
  | st, _, 0 => st
  | st, i, Nat.succ count =>
    let r := process pats cfg.env cfg.resolve cfg.extResolve st.store (cfg.pageAnchors i)
    if r.crashed then
      { st with
        store := r.store
        missing := st.missing ++ r.missing
        events := st.events ++ [RunEvent.runCrashed i]
        crashed := true }
    else
      let st2 : RunState :=
        { st with
          store := r.store
          missing := st.missing ++ r.missing
          events := st.events ++ [RunEvent.pageProcessed i, RunEvent.cursorSaved i]
          saves := st.saves ++ [i] }
      if i < total then
        if (advanceCascadeT (cfg.nav (i + 1))).1 then
          runPages pats cfg total st2 (i + 1) count
        else { st2 with aborted := true, abortTarget := some (i + 1) }
      else st2

/-- One crawl run: resume at page `resume`, with the total-page count read
from the last-page control. -/
def scraper_run (pats : List Str) (cfg : CrawlCfg) (resume : Nat)
    (lastControl : Option Nat) : RunState :=
  runPages pats cfg (totalPages lastControl) initState resume
    (totalPages lastControl + 1 - resume)

/-! ## Lemmas about the allowlist -/

lemma isPrefixL_refl (l : Str) : isPrefixL l l = true := by
  induction l with
  | nil => rfl
  | cons a as ih => simp [isPrefixL, ih]

lemma hereMatch_self (v : Str) : hereMatch (lowerStr v) none v = true := by
  unfold hereMatch boundaryOk
  have hlen : (lowerStr v).length = v.length := List.length_map _ _
  rw [hlen, List.drop_length]
  simp [isPrefixL_refl]

lemma boundarySearch_self (v : Str) : boundarySearch v v = true := by
  unfold boundarySearch
  cases v with
  | nil => rfl
  | cons c rest =>
    unfold searchFrom
    rw [hereMatch_self]
    simp

lemma is_allowed_of_mem {pats : List Str} {v : Str} (h : v ∈ pats) :
    is_allowed pats v = true := by
  unfold is_allowed
  rw [List.any_eq_true]
  exact ⟨v, h, by simp [boundarySearch_self]⟩

lemma mem_load_allowed_ids {raw : List Str} {i v : Str}
    (hi : i ∈ raw) (hv : v ∈ variantsOf i) : v ∈ load_allowed_ids raw := by
  unfold load_allowed_ids
  exact List.mem_flatMap.mpr ⟨i, hi, hv⟩

/-! ## Lemmas about `upload_to_s3` -/

lemma upload_skip {pats : List Str} {env : NetEnv} {st : Store} {url : Str}
    (h : skipName (basename url) = true) :
    upload_to_s3 pats env st url = (some TransferResult.Skipped, st, []) := by
  simp [upload_to_s3, h]

lemma upload_not_allowed {pats : List Str} {env : NetEnv} {st : Store} {url : Str}
    (h : is_allowed pats url = false) :
    upload_to_s3 pats env st url = (some TransferResult.Skipped, st, []) := by
  unfold upload_to_s3
  by_cases hs : skipName (basename url) = true <;> simp [hs, h]

lemma upload_pats_nil (env : NetEnv) (st : Store) (url : Str) :
    upload_to_s3 [] env st url = (some TransferResult.Skipped, st, []) := by
  apply upload_not_allowed
  simp [is_allowed]

lemma lookupS_none_keyCount {k : Str} : ∀ {st : Store},
    lookupS k st = none → keyCount k st = 0 := by
  intro st
  induction st with
  | nil => intro _; rfl
  | cons p t ih =>
    obtain ⟨a, b⟩ := p
    by_cases hak : a = k
    · simp [lookupS, hak]
    · simp [lookupS, keyCount, hak]
      exact ih

/-! ## Claim C3 -/

/-- Claim C3: for every raw identifier that contains a slash and splits into
exactly three slash-delimited segments, the allowlist built by
`load_allowed_ids` accepts the identifier itself, the identifier with every
slash removed, the identifier with every slash replaced by an underscore,
and the first and last segments joined both with and without an
underscore. -/
theorem allowlist_variants (raw : List Str) (i p q s : Str)
    (hmem : i ∈ raw) (hc : i.contains '/' = true)
    (hsplit : splitOnChar '/' i = [p, q, s]) :
    is_allowed (load_allowed_ids raw) i = true ∧
    is_allowed (load_allowed_ids raw) (removeSlash i) = true ∧
    is_allowed (load_allowed_ids raw) (slashToUnderscore i) = true ∧
    is_allowed (load_allowed_ids raw) (p ++ '_' :: s) = true ∧
    is_allowed (load_allowed_ids raw) (p ++ s) = true := by
  have hin : '/' ∈ i := by simpa using hc
  refine ⟨?_, ?_, ?_, ?_, ?_⟩ <;>
    refine is_allowed_of_mem (mem_load_allowed_ids hmem ?_) <;>
    simp [variantsOf, hc, hsplit, hin]

/-- Witness for C3 at the three-segment identifier `12A/34/5`. -/
theorem allowlist_variants_witness :
    is_allowed (load_allowed_ids [strL "12A/34/5"]) (strL "12A/34/5") = true ∧
    is_allowed (load_allowed_ids [strL "12A/34/5"]) (removeSlash (strL "12A/34/5")) = true ∧
    is_allowed (load_allowed_ids [strL "12A/34/5"]) (slashToUnderscore (strL "12A/34/5")) = true ∧
    is_allowed (load_allowed_ids [strL "12A/34/5"]) (strL "12A" ++ '_' :: strL "5") = true ∧
    is_allowed (load_allowed_ids [strL "12A/34/5"]) (strL "12A" ++ strL "5") = true :=
  allowlist_variants [strL "12A/34/5"] (strL "12A/34/5") (strL "12A") (strL "34")
    (strL "5") (by decide) (by decide) (by decide)

/-! ## Claim C5 -/

/-- Claim C5: a URL whose final path segment contains a skip keyword
(`map` or `research`, case-insensitive substring) is Skipped with no
existence probe, no download and no other network access, and the bucket
is unchanged, regardless of the allowlist. -/
theorem upload_skip_keyword (pats : List Str) (env : NetEnv) (st : Store)
    (url : Str) (h : skipName (basename url) = true) :
    upload_to_s3 pats env st url = (some TransferResult.Skipped, st, []) :=
  upload_skip h

/-- Witness for C5: `Map1.pdf` is skipped even though it is allowlisted. -/
theorem upload_skip_keyword_witness :
    upload_to_s3 [strL "Map1.pdf"]
        ⟨fun _ => false, fun _ => some (strL "B"), fun _ => none⟩
        [] (strL "http://h/Map1.pdf") =
      (some TransferResult.Skipped, [], []) ∧
    is_allowed [strL "Map1.pdf"] (strL "http://h/Map1.pdf") = true :=
  ⟨upload_skip_keyword [strL "Map1.pdf"]
      ⟨fun _ => false, fun _ => some (strL "B"), fun _ => none⟩
      [] (strL "http://h/Map1.pdf") (by decide),
    by decide⟩

/-! ## Claim C1 -/

/-- Claim C1, as frozen, is refuted here: a URL whose filename contains a
skip keyword is answered `Skipped` even when its derived destination key is
already present at the destination, not `AlreadyExists`.  The input is
`http://h/map.pdf` with `Textract/input/map.pdf` already in the bucket. -/
theorem upload_present_not_alreadyExists :
    lookupS (destKey (basename (strL "http://h/map.pdf")))
        [(destKey (strL "map.pdf"), strL "B")] = some (strL "B") ∧
    (upload_to_s3 [strL "map.pdf"]
        ⟨fun _ => false, fun _ => some (strL "B"), fun _ => none⟩
        [(destKey (strL "map.pdf"), strL "B")] (strL "http://h/map.pdf")).1 =
      some TransferResult.Skipped ∧
    some TransferResult.Skipped ≠ some TransferResult.AlreadyExists := by
  refine ⟨by decide, by decide, by decide⟩

/-- Claim C1 amended: for every URL that passes the skip-keyword filter and
the allowlist and whose existence probe does not error, `upload_to_s3` is
idempotent and never overwrites: when the derived key is present it answers
`AlreadyExists` with the bucket unchanged and no write, and when the key is
absent and the download succeeds, two calls in sequence answer
`Transferred` then `AlreadyExists` and leave exactly one copy of the bytes
under the key. -/
theorem upload_idempotent_guarded (pats : List Str) (env : NetEnv) (st : Store)
    (url body : Str)
    (hskip : skipName (basename url) = false)
    (hallow : is_allowed pats url = true)
    (hhead : env.headErr (destKey (basename url)) = false) :
    (∀ b, lookupS (destKey (basename url)) st = some b →
      upload_to_s3 pats env st url =
        (some TransferResult.AlreadyExists, st,
          [NetEvent.headProbe (destKey (basename url))])) ∧
    (lookupS (destKey (basename url)) st = none →
      env.download url = some body →
      upload_to_s3 pats env st url =
        (some TransferResult.Transferred, (destKey (basename url), body) :: st,
          [NetEvent.headProbe (destKey (basename url)), NetEvent.download url,
            NetEvent.uploadPut (destKey (basename url))]) ∧
      upload_to_s3 pats env ((destKey (basename url), body) :: st) url =
        (some TransferResult.AlreadyExists, (destKey (basename url), body) :: st,
          [NetEvent.headProbe (destKey (basename url))]) ∧
      keyCount (destKey (basename url)) ((destKey (basename url), body) :: st) = 1) := by
  constructor
  · intro b hb
    simp [upload_to_s3, hskip, hallow, hhead, hb]
  · intro hnone hdl
    refine ⟨?_, ?_, ?_⟩
    · simp [upload_to_s3, hskip, hallow, hhead, hnone, hdl]
    · simp [upload_to_s3, hskip, hallow, hhead, lookupS]
    · simp [keyCount, lookupS_none_keyCount hnone]

/-- Witness for C1 amended: transferring `http://h/a.pdf` into an empty
bucket, then transferring it again. -/
theorem upload_idempotent_guarded_witness :
    upload_to_s3 [strL "a.pdf"]
        ⟨fun _ => false, fun _ => some (strL "B"), fun _ => none⟩
        [] (strL "http://h/a.pdf") =
      (some TransferResult.Transferred,
        (destKey (basename (strL "http://h/a.pdf")), strL "B") :: [],
        [NetEvent.headProbe (destKey (basename (strL "http://h/a.pdf"))),
          NetEvent.download (strL "http://h/a.pdf"),
          NetEvent.uploadPut (destKey (basename (strL "http://h/a.pdf")))]) ∧
    upload_to_s3 [strL "a.pdf"]
        ⟨fun _ => false, fun _ => some (strL "B"), fun _ => none⟩
        ((destKey (basename (strL "http://h/a.pdf")), strL "B") :: [])
        (strL "http://h/a.pdf") =
      (some TransferResult.AlreadyExists,
        (destKey (basename (strL "http://h/a.pdf")), strL "B") :: [],
        [NetEvent.headProbe (destKey (basename (strL "http://h/a.pdf")))]) ∧
    keyCount (destKey (basename (strL "http://h/a.pdf")))
        ((destKey (basename (strL "http://h/a.pdf")), strL "B") :: []) = 1 :=
  (upload_idempotent_guarded [strL "a.pdf"]
      ⟨fun _ => false, fun _ => some (strL "B"), fun _ => none⟩
      [] (strL "http://h/a.pdf") (strL "B")
      (by decide) (by decide) (by decide)).2 (by decide) (by decide)

/-! ## Lemmas about `process` -/

lemma upload_notNone {pats : List Str} {env : NetEnv} {st : Store} {u : Str}
    (h : (env.download u).isSome = true) :
    (upload_to_s3 pats env st u).1.isNone = false := by
  obtain ⟨body, hb⟩ := Option.isSome_iff_exists.mp h
  simp only [upload_to_s3, hb]
  split
  · rfl
  · split
    · split
      · rfl
      · split
        · rfl
        · rfl
    · rfl

lemma process_no_crash {pats : List Str} {env : NetEnv} {res : Str → Str}
    {extRes : Str → Str → Str} : ∀ (xs : List Str) (st : Store),
    (∀ href ∈ xs, artifactExt (fullOf res href) = true →
        (env.download (fullOf res href)).isSome = true) →
    (process pats env res extRes st xs).crashed = false := by
  intro xs
  induction xs with
  | nil => intro st _; rfl
  | cons href rest ih =>
    intro st hyp
    have hrest : ∀ h2 ∈ rest, artifactExt (fullOf res h2) = true →
        (env.download (fullOf res h2)).isSome = true :=
      fun h2 hm ha => hyp h2 (List.mem_cons_of_mem _ hm) ha
    by_cases hA : artifactExt (fullOf res href) = true
    · have hd := hyp href (List.mem_cons_self _ _) hA
      have hnn := @upload_notNone pats env st (fullOf res href) hd
      simp only [process, hA, if_true, hnn, Bool.false_eq_true, if_false]
      exact ih _ hrest
    · simp only [process, hA, Bool.false_eq_true, if_false]
      by_cases hE : (startsWithL EXTERNAL_PREFIX_STR (fullOf res href) &&
          is_allowed pats (fullOf res href)) = true
      · simp only [hE, if_true]
        exact ih _ hrest
      · simp only [hE, Bool.false_eq_true, if_false]
        exact ih _ hrest

lemma process_pats_nil (env : NetEnv) (res : Str → Str)
    (extRes : Str → Str → Str) : ∀ (xs : List Str) (st : Store),
    process [] env res extRes st xs = ⟨st, [], [], false⟩ := by
  intro xs
  induction xs with
  | nil => intro st; rfl
  | cons href rest ih =>
    intro st
    by_cases hA : artifactExt (fullOf res href) = true
    · simp only [process, hA, if_true, upload_pats_nil, Option.isNone_some,
        Bool.false_eq_true, if_false, ih, List.append_nil]
    · simp only [process, hA, Bool.false_eq_true, if_false]
      have hE : (startsWithL EXTERNAL_PREFIX_STR (fullOf res href) &&
          is_allowed [] (fullOf res href)) = false := by
        simp [is_allowed]
      simp only [hE, Bool.false_eq_true, if_false, ih]

/-! ## Claim C6 -/

/-- Claim C6, as frozen, is refuted here: an error raised while downloading
a direct artifact of the listing page propagates out of `process` — the
exception from `requests.get` / `raise_for_status` in `upload_to_s3` is not
caught in the direct-download branch of `process` — so the remaining
candidate (`http://h/b.pdf`) of the same page is never handed to transfer
and the run dies.  Input: the allowlisted page anchors
`[http://h/a.pdf, http://h/b.pdf]` with every download failing. -/
theorem direct_artifact_error_aborts :
    (process [strL "a.pdf", strL "b.pdf"]
        ⟨fun _ => false, fun _ => none, fun _ => none⟩ (fun h => h) (fun _ l => l)
        [] [strL "http://h/a.pdf", strL "http://h/b.pdf"]).crashed = true ∧
    NetEvent.download (strL "http://h/b.pdf") ∉
      (process [strL "a.pdf", strL "b.pdf"]
        ⟨fun _ => false, fun _ => none, fun _ => none⟩ (fun h => h) (fun _ l => l)
        [] [strL "http://h/a.pdf", strL "http://h/b.pdf"]).events := by
  refine ⟨by decide, by decide⟩

/-- Claim C6 amended: errors confined to one external detail page — a
failed page fetch, or an exception while transferring an artifact found on
that page — never propagate past that page: whenever every direct artifact
of the listing page itself can be downloaded, `process` finishes without a
propagating exception, for every behaviour of the external fetches and
external downloads.  A transient (non-404) existence-probe error on an
artifact yields a `Failed` result with no transfer and no propagation.
An error downloading a direct listing artifact, by contrast, does
propagate (see the counterexample). -/
theorem process_error_containment :
    (∀ (pats : List Str) (env : NetEnv) (res : Str → Str)
        (extRes : Str → Str → Str) (st : Store) (xs : List Str),
      (∀ href ∈ xs, artifactExt (fullOf res href) = true →
          (env.download (fullOf res href)).isSome = true) →
      (process pats env res extRes st xs).crashed = false) ∧
    (∀ (pats : List Str) (env : NetEnv) (st : Store) (url : Str),
      skipName (basename url) = false →
      is_allowed pats url = true →
      env.headErr (destKey (basename url)) = true →
      upload_to_s3 pats env st url =
        (some TransferResult.Failed, st,
          [NetEvent.headProbe (destKey (basename url))])) := by
  constructor
  · intro pats env res extRes st xs h
    exact process_no_crash xs st h
  · intro pats env st url hskip hallow hhead
    simp [upload_to_s3, hskip, hallow, hhead]

/-- Witness for C6 amended: a listing page whose only direct artifact
downloads fine while its external detail page fails to fetch, and a probe
error answered by `Failed`. -/
theorem process_error_containment_witness :
    (process [strL "a.pdf"]
        ⟨fun _ => false, fun _ => some (strL "B"), fun _ => none⟩
        (fun h => h) (fun _ l => l) []
        [strL "http://h/a.pdf",
          EXTERNAL_PREFIX_STR ++ strL "-a.pdf-x"]).crashed = false ∧
    upload_to_s3 [strL "a.pdf"]
        ⟨fun _ => true, fun _ => some (strL "B"), fun _ => none⟩
        [] (strL "http://h/a.pdf") =
      (some TransferResult.Failed, [],
        [NetEvent.headProbe (destKey (basename (strL "http://h/a.pdf")))]) :=
  ⟨process_error_containment.1 [strL "a.pdf"]
      ⟨fun _ => false, fun _ => some (strL "B"), fun _ => none⟩
      (fun h => h) (fun _ l => l) []
      [strL "http://h/a.pdf", EXTERNAL_PREFIX_STR ++ strL "-a.pdf-x"]
      (by decide),
    process_error_containment.2 [strL "a.pdf"]
      ⟨fun _ => true, fun _ => some (strL "B"), fun _ => none⟩
      [] (strL "http://h/a.pdf") (by decide) (by decide) (by decide)⟩

/-! ## Claim C7 -/

lemma runPages_pats_nil (cfg : CrawlCfg) (total : Nat) : ∀ (count i : Nat)
    (st : RunState),
    (runPages [] cfg total st i count).store = st.store ∧
    (runPages [] cfg total st i count).missing = st.missing ∧
    (runPages [] cfg total st i count).crashed = st.crashed := by
  intro count
  induction count with
  | zero => intro i st; exact ⟨rfl, rfl, rfl⟩
  | succ n ih =>
    intro i st
    simp only [runPages, process_pats_nil, List.append_nil]
    by_cases hlt : i < total
    · by_cases hnav : (advanceCascadeT (cfg.nav (i + 1))).1 = true
      · simpa [hlt, hnav] using ih (i + 1) _
      · simp [hlt, hnav]
    · simp [hlt]

/-- Claim C7: with an empty set of raw identifiers, `is_allowed` rejects
every URL; `upload_to_s3` then answers `Skipped` for every URL without
touching the bucket, and a whole crawl run completes without a propagating
exception, transfers nothing into the bucket and records no missing
entries. -/
theorem allowlist_empty_rejects :
    (∀ url : Str, is_allowed (load_allowed_ids []) url = false) ∧
    (∀ (env : NetEnv) (st : Store) (url : Str),
      upload_to_s3 [] env st url = (some TransferResult.Skipped, st, [])) ∧
    (∀ (cfg : CrawlCfg) (resume : Nat) (lastControl : Option Nat),
      (scraper_run [] cfg resume lastControl).store = [] ∧
      (scraper_run [] cfg resume lastControl).missing = [] ∧
      (scraper_run [] cfg resume lastControl).crashed = false) := by
  refine ⟨?_, ?_, ?_⟩
  · intro url
    simp [is_allowed, load_allowed_ids]
  · intro env st url
    exact upload_pats_nil env st url
  · intro cfg resume lastControl
    exact runPages_pats_nil cfg (totalPages lastControl) _ resume initState

/-! ## Claim C8 -/

lemma extFetch_not_in_upload (pats : List Str) (env : NetEnv) (st : Store)
    (u v : Str) : NetEvent.extFetch v ∉ (upload_to_s3 pats env st u).2.2 := by
  unfold upload_to_s3
  by_cases h1 : skipName (basename u) = true
  · simp [h1]
  · by_cases h2 : is_allowed pats u = true
    · by_cases h3 : env.headErr (destKey (basename u)) = true
      · simp [h1, h2, h3]
      · cases h4 : lookupS (destKey (basename u)) st with
        | some b => simp [h1, h2, h3, h4]
        | none =>
          cases h5 : env.download u with
          | none => simp [h1, h2, h3, h4, h5]
          | some body => simp [h1, h2, h3, h4, h5]
    · simp [h1, h2]

lemma extFetch_not_in_extLoop {pats : List Str} {env : NetEnv}
    {extRes : Str → Str → Str} {base v : Str} : ∀ (xs : List Str) (st : Store)
    (got : Bool),
    NetEvent.extFetch v ∉ (extLoop pats env extRes base st got xs).events := by
  intro xs
  induction xs with
  | nil => intro st got; simp [extLoop]
  | cons link rest ih =>
    intro st got
    by_cases hA : artifactExt (fullExtOf extRes base link) = true
    · by_cases hN :
        (upload_to_s3 pats env st (fullExtOf extRes base link)).1.isNone = true
      · simp only [extLoop, hA, if_true, hN]
        exact extFetch_not_in_upload _ _ _ _ _
      · simp only [extLoop, hA, if_true, hN, Bool.false_eq_true, if_false,
          List.mem_append, not_or]
        exact ⟨extFetch_not_in_upload _ _ _ _ _, ih _ _⟩
    · simp only [extLoop, hA, Bool.false_eq_true, if_false]
      exact ih st got

lemma extFetch_in_handleExternal {pats : List Str} {env : NetEnv}
    {extRes : Str → Str → Str} {st : Store} {full v : Str}
    (h : NetEvent.extFetch v ∈ (handleExternal pats env extRes st full).2.2) :
    v = full := by
  cases hp : env.extPage full with
  | none =>
    simp only [handleExternal, hp] at h
    simpa using h
  | some anchors =>
    simp only [handleExternal, hp] at h
    have hloop := @extFetch_not_in_extLoop pats env extRes full v anchors st false
    split at h
    · rcases List.mem_cons.mp h with h1 | h1
      · injection h1 with h2
      · exact absurd h1 hloop
    · split at h
      · rcases List.mem_cons.mp h with h1 | h1
        · injection h1 with h2
        · exact absurd h1 hloop
      · rcases List.mem_cons.mp h with h1 | h1
        · injection h1 with h2
        · exact absurd h1 hloop

lemma extFetch_in_process {pats : List Str} {env : NetEnv} {res : Str → Str}
    {extRes : Str → Str → Str} {v : Str} : ∀ (xs : List Str) (st : Store),
    NetEvent.extFetch v ∈ (process pats env res extRes st xs).events →
    (∃ href ∈ xs, fullOf res href = v) ∧ artifactExt v = false ∧
    startsWithL EXTERNAL_PREFIX_STR v = true ∧ is_allowed pats v = true := by
  intro xs
  induction xs with
  | nil => intro st h; simp [process] at h
  | cons href rest ih =>
    intro st h
    by_cases hA : artifactExt (fullOf res href) = true
    · by_cases hN : (upload_to_s3 pats env st (fullOf res href)).1.isNone = true
      · simp only [process, hA, if_true, hN] at h
        exact absurd h (extFetch_not_in_upload _ _ _ _ _)
      · simp only [process, hA, if_true, hN, Bool.false_eq_true, if_false,
          List.mem_append] at h
        rcases h with h | h
        · exact absurd h (extFetch_not_in_upload _ _ _ _ _)
        · obtain ⟨⟨h2, hm, hf⟩, rest'⟩ := ih _ h
          exact ⟨⟨h2, List.mem_cons_of_mem _ hm, hf⟩, rest'⟩
    · by_cases hE : (startsWithL EXTERNAL_PREFIX_STR (fullOf res href) &&
          is_allowed pats (fullOf res href)) = true
      · simp only [process, hA, Bool.false_eq_true, if_false, hE, if_true,
          List.mem_append] at h
        rcases h with h | h
        · have hv := extFetch_in_handleExternal h
          subst hv
          have hE' : startsWithL EXTERNAL_PREFIX_STR (fullOf res href) = true ∧
              is_allowed pats (fullOf res href) = true := by simpa using hE
          have hA' : artifactExt (fullOf res href) = false := by simpa using hA
          exact ⟨⟨href, List.mem_cons_self _ _, rfl⟩, hA', hE'.1, hE'.2⟩
        · obtain ⟨⟨h2, hm, hf⟩, rest'⟩ := ih _ h
          exact ⟨⟨h2, List.mem_cons_of_mem _ hm, hf⟩, rest'⟩
      · simp only [process, hA, Bool.false_eq_true, if_false, hE] at h
        obtain ⟨⟨h2, hm, hf⟩, rest'⟩ := ih _ h
        exact ⟨⟨h2, List.mem_cons_of_mem _ hm, hf⟩, rest'⟩

/-- Claim C8: classification follows the fixed precedence and the walk
depth never exceeds two.  (1) Every external-page fetch performed by
`process` belongs to a listing anchor whose resolved URL is not an
artifact-extension URL (rule 1 takes precedence), starts with the external
prefix and passes the allowlist (rule 2).  (2) Scanning an external detail
page performs no external-page fetch at all — only the artifact-extension
rule is applied to its anchors, so an external link found on an external
page is never followed.  (3) An anchor matching neither rule is dropped:
`process` treats the page as if the anchor were absent. -/
theorem process_depth_bound :
    (∀ (pats : List Str) (env : NetEnv) (res : Str → Str)
        (extRes : Str → Str → Str) (st : Store) (xs : List Str) (v : Str),
      NetEvent.extFetch v ∈ (process pats env res extRes st xs).events →
      (∃ href ∈ xs, fullOf res href = v) ∧ artifactExt v = false ∧
      startsWithL EXTERNAL_PREFIX_STR v = true ∧ is_allowed pats v = true) ∧
    (∀ (pats : List Str) (env : NetEnv) (extRes : Str → Str → Str)
        (base : Str) (st : Store) (got : Bool) (xs : List Str) (v : Str),
      NetEvent.extFetch v ∉ (extLoop pats env extRes base st got xs).events) ∧
    (∀ (pats : List Str) (env : NetEnv) (res : Str → Str)
        (extRes : Str → Str → Str) (st : Store) (xs : List Str) (href : Str),
      artifactExt (fullOf res href) = false →
      (startsWithL EXTERNAL_PREFIX_STR (fullOf res href) &&
        is_allowed pats (fullOf res href)) = false →
      process pats env res extRes st (href :: xs) =
        process pats env res extRes st xs) := by
  refine ⟨?_, ?_, ?_⟩
  · intro pats env res extRes st xs v h
    exact extFetch_in_process xs st h
  · intro pats env extRes base st got xs v
    exact extFetch_not_in_extLoop xs st got
  · intro pats env res extRes st xs href hA hE
    simp only [process, hA, Bool.false_eq_true, if_false, hE]

/-- Witness for C8: a listing page with one allowlisted external-detail
anchor; the fetch of that page is attributed to that anchor by part (1). -/
theorem process_depth_bound_witness :
    (∃ href ∈ [EXTERNAL_PREFIX_STR ++ strL "-open-file-1"],
      fullOf (fun h => h) href = EXTERNAL_PREFIX_STR ++ strL "-open-file-1") ∧
    artifactExt (EXTERNAL_PREFIX_STR ++ strL "-open-file-1") = false ∧
    startsWithL EXTERNAL_PREFIX_STR (EXTERNAL_PREFIX_STR ++ strL "-open-file-1") = true ∧
    is_allowed [strL "open-file-1"] (EXTERNAL_PREFIX_STR ++ strL "-open-file-1") = true :=
  process_depth_bound.1 [strL "open-file-1"]
    ⟨fun _ => false, fun _ => some (strL "B"), fun _ => some []⟩
    (fun h => h) (fun _ l => l) [] [EXTERNAL_PREFIX_STR ++ strL "-open-file-1"]
    (EXTERNAL_PREFIX_STR ++ strL "-open-file-1") (by decide)

/-! ## Claims C9 and C10 -/

lemma extLoop_got_mono (pats : List Str) (env : NetEnv)
    {extRes : Str → Str → Str} {base : Str} : ∀ (xs : List Str) (st : Store),
    (extLoop pats env extRes base st true xs).gotFiles = true := by
  intro xs
  induction xs with
  | nil => intro st; rfl
  | cons link rest ih =>
    intro st
    by_cases hA : artifactExt (fullExtOf extRes base link) = true
    · by_cases hN :
        (upload_to_s3 pats env st (fullExtOf extRes base link)).1.isNone = true
      · simp [extLoop, hA, hN]
      · simp [extLoop, hA, hN, ih]
    · simp [extLoop, hA, ih]

lemma extLoop_exists_artifact (pats : List Str) (env : NetEnv)
    {extRes : Str → Str → Str} {base : Str} : ∀ (xs : List Str) (st : Store)
    (got : Bool),
    (∃ link ∈ xs, artifactExt (fullExtOf extRes base link) = true) →
    (extLoop pats env extRes base st got xs).gotFiles = true ∨
    (extLoop pats env extRes base st got xs).crashed = true := by
  intro xs
  induction xs with
  | nil =>
    intro st got h
    rcases h with ⟨l, hm, _⟩
    exact absurd hm (List.not_mem_nil l)
  | cons link rest ih =>
    intro st got h
    by_cases hA : artifactExt (fullExtOf extRes base link) = true
    · by_cases hN :
        (upload_to_s3 pats env st (fullExtOf extRes base link)).1.isNone = true
      · right
        simp [extLoop, hA, hN]
      · left
        simp only [extLoop, hA, if_true, hN, Bool.false_eq_true, if_false]
        exact extLoop_got_mono pats env rest _
    · rcases h with ⟨l, hm, hart⟩
      rcases List.mem_cons.mp hm with hl | hl
      · subst hl
        exact absurd hart hA
      · simp only [extLoop, hA, Bool.false_eq_true, if_false]
        exact ih st got ⟨l, hl, hart⟩

lemma extLoop_no_artifact (pats : List Str) (env : NetEnv)
    {extRes : Str → Str → Str} {base : Str} : ∀ (xs : List Str) (st : Store)
    (got : Bool),
    (∀ link ∈ xs, artifactExt (fullExtOf extRes base link) = false) →
    extLoop pats env extRes base st got xs = ⟨st, [], got, false⟩ := by
  intro xs
  induction xs with
  | nil => intro st got _; rfl
  | cons link rest ih =>
    intro st got h
    have hA : artifactExt (fullExtOf extRes base link) = false :=
      h link (List.mem_cons_self _ _)
    simp only [extLoop, hA, Bool.false_eq_true, if_false]
    exact ih st got (fun l hl => h l (List.mem_cons_of_mem _ hl))

lemma extLoop_filtered (pats : List Str) (env : NetEnv)
    {extRes : Str → Str → Str} {base : Str} : ∀ (xs : List Str) (st : Store)
    (got : Bool),
    (∀ link ∈ xs, artifactExt (fullExtOf extRes base link) = true →
      (skipName (basename (fullExtOf extRes base link)) = true ∨
        is_allowed pats (fullExtOf extRes base link) = false)) →
    extLoop pats env extRes base st got xs =
      ⟨st, [], got || xs.any (fun l => artifactExt (fullExtOf extRes base l)),
        false⟩ := by
  intro xs
  induction xs with
  | nil => intro st got _; simp [extLoop]
  | cons link rest ih =>
    intro st got h
    have hrest := fun l hl => h l (List.mem_cons_of_mem _ hl)
    by_cases hA : artifactExt (fullExtOf extRes base link) = true
    · have hu : upload_to_s3 pats env st (fullExtOf extRes base link) =
          (some TransferResult.Skipped, st, []) := by
        rcases h link (List.mem_cons_self _ _) hA with hf | hf
        · exact upload_skip hf
        · exact upload_not_allowed hf
      simp [extLoop, hA, hu, ih st true hrest]
    · simp [extLoop, hA, ih st got hrest]

/-- Claim C9: an external detail page whose anchors include at least one
artifact-extension link produces no missing-log entry, while an external
detail page with no artifact-extension anchor produces exactly one
missing-log entry, named by the page URL's trailing path segment with
surrounding slashes trimmed. -/
theorem external_missing_log (pats : List Str) (env : NetEnv)
    (extRes : Str → Str → Str) (st : Store) (full : Str) (anchors : List Str)
    (hp : env.extPage full = some anchors) :
    ((∃ link ∈ anchors, artifactExt (fullExtOf extRes full link) = true) →
      (handleExternal pats env extRes st full).2.1 = []) ∧
    ((∀ link ∈ anchors, artifactExt (fullExtOf extRes full link) = false) →
      (handleExternal pats env extRes st full).2.1 =
        [basename (rstripSlash full)]) := by
  constructor
  · intro hex
    rcases extLoop_exists_artifact pats env anchors st false hex with hg | hc
    · by_cases hcr : (extLoop pats env extRes full st false anchors).crashed = true
      · simp [handleExternal, hp, hcr]
      · simp [handleExternal, hp, hcr, hg]
    · simp [handleExternal, hp, hc]
  · intro hall
    simp [handleExternal, hp, extLoop_no_artifact pats env anchors st false hall]

/-- Witness for C9: the page `http://ext/doc-1/` once with anchors
`{a.pdf, b.txt}` (no missing entry) and once with anchors `{b.txt}`
(one missing entry named `doc-1`). -/
theorem external_missing_log_witness :
    (handleExternal []
        ⟨fun _ => false, fun _ => some (strL "B"),
          fun _ => some [strL "a.pdf", strL "b.txt"]⟩
        (fun _ l => strL "http://e/" ++ l) [] (strL "http://ext/doc-1/")).2.1 = [] ∧
    (handleExternal []
        ⟨fun _ => false, fun _ => some (strL "B"),
          fun _ => some [strL "b.txt"]⟩
        (fun _ l => strL "http://e/" ++ l) [] (strL "http://ext/doc-1/")).2.1 =
      [basename (rstripSlash (strL "http://ext/doc-1/"))] :=
  ⟨(external_missing_log []
      ⟨fun _ => false, fun _ => some (strL "B"),
        fun _ => some [strL "a.pdf", strL "b.txt"]⟩
      (fun _ l => strL "http://e/" ++ l) [] (strL "http://ext/doc-1/")
      [strL "a.pdf", strL "b.txt"] (by decide)).1
    ⟨strL "a.pdf", by decide, by decide⟩,
    (external_missing_log []
      ⟨fun _ => false, fun _ => some (strL "B"),
        fun _ => some [strL "b.txt"]⟩
      (fun _ l => strL "http://e/" ++ l) [] (strL "http://ext/doc-1/")
      [strL "b.txt"] (by decide)).2 (by decide)⟩

/-- Claim C10: if every artifact-extension link of an external detail page
is filtered out by the transfer step (skip keyword in the filename, or
allowlist failure) so that nothing is transferred, the page still counts as
having yielded artifacts: no missing-log entry is written and the bucket is
unchanged. -/
theorem external_filtered_no_missing (pats : List Str) (env : NetEnv)
    (extRes : Str → Str → Str) (st : Store) (full : Str) (anchors : List Str)
    (hp : env.extPage full = some anchors)
    (hex : ∃ link ∈ anchors, artifactExt (fullExtOf extRes full link) = true)
    (hfil : ∀ link ∈ anchors, artifactExt (fullExtOf extRes full link) = true →
      (skipName (basename (fullExtOf extRes full link)) = true ∨
        is_allowed pats (fullExtOf extRes full link) = false)) :
    (handleExternal pats env extRes st full).2.1 = [] ∧
    (handleExternal pats env extRes st full).1 = st := by
  have hl := extLoop_filtered pats env anchors st false hfil
  have hany : anchors.any (fun l => artifactExt (fullExtOf extRes full l)) = true := by
    rw [List.any_eq_true]
    rcases hex with ⟨l, hm, ha⟩
    exact ⟨l, hm, ha⟩
  rw [hany] at hl
  simp [handleExternal, hp, hl]

/-- Witness for C10: an external page whose only artifact link `a.pdf`
fails the (empty) allowlist; nothing is transferred yet no missing entry
is recorded. -/
theorem external_filtered_no_missing_witness :
    (handleExternal []
        ⟨fun _ => false, fun _ => some (strL "B"), fun _ => some [strL "a.pdf"]⟩
        (fun _ l => strL "http://e/" ++ l) [] (strL "http://ext/doc-1/")).2.1 = [] ∧
    (handleExternal []
        ⟨fun _ => false, fun _ => some (strL "B"), fun _ => some [strL "a.pdf"]⟩
        (fun _ l => strL "http://e/" ++ l) [] (strL "http://ext/doc-1/")).1 = [] :=
  external_filtered_no_missing []
    ⟨fun _ => false, fun _ => some (strL "B"), fun _ => some [strL "a.pdf"]⟩
    (fun _ l => strL "http://e/" ++ l) [] (strL "http://ext/doc-1/")
    [strL "a.pdf"] (by decide) ⟨strL "a.pdf", by decide, by decide⟩
    (by decide)

/-! ## Claim C2 -/

/-- Claim C2, as frozen, is refuted here: when the goPage strategy throws
and the next-control anchor is absent, strategy 2 completes its `try` block
without an exception and without navigating, so the cascade falls through
to strategy 3 with no log for strategy 2.  Here strategy 3 then succeeds:
strategies 1, 2, 3 were attempted, yet only strategy 1's failure was
logged. -/
theorem advance_cascade_silent_fallthrough :
    (advanceCascade false TryOut.noAnchor TryOut.succ true true).2.1 = [1, 2, 3] ∧
    (advanceCascade false TryOut.noAnchor TryOut.succ true true).1 = true ∧
    2 ∉ (advanceCascade false TryOut.noAnchor TryOut.succ true true).2.2 := by
  refine ⟨by decide, by decide, by decide⟩

lemma runPages_abort (pats : List Str) (cfg : CrawlCfg) (total : Nat) :
    ∀ (count i : Nat) (st : RunState),
    (∀ x ∈ st.saves, x < i) → st.aborted = false →
    (runPages pats cfg total st i count).aborted = true →
    ∃ k, (runPages pats cfg total st i count).abortTarget = some k ∧
      (runPages pats cfg total st i count).saves.getLast? = some (k - 1) ∧
      k ∉ (runPages pats cfg total st i count).saves := by
  intro count
  induction count with
  | zero =>
    intro i st hsv hab hres
    simp [runPages, hab] at hres
  | succ n ih =>
    intro i st hsv hab hres
    by_cases hcr : (process pats cfg.env cfg.resolve cfg.extResolve st.store
        (cfg.pageAnchors i)).crashed = true
    · simp [runPages, hcr, hab] at hres
    · by_cases hlt : i < total
      · by_cases hnav : (advanceCascadeT (cfg.nav (i + 1))).1 = true
        · simp only [runPages, hcr, Bool.false_eq_true, if_false, hlt,
            if_true, hnav] at hres ⊢
          refine ih (i + 1) _ ?_ hab hres
          intro x hx
          rcases List.mem_append.mp hx with hx | hx
          · exact Nat.lt_succ_of_lt (hsv x hx)
          · simp at hx
            omega
        · simp only [runPages, hcr, Bool.false_eq_true, if_false, hlt,
            if_true, hnav] at hres ⊢
          refine ⟨i + 1, rfl, ?_, ?_⟩
          · simp
          · intro hx
            rcases List.mem_append.mp hx with hx | hx
            · exact absurd (hsv _ hx) (by omega)
            · simp at hx
      · simp [runPages, hcr, hlt, hab] at hres

/-- Claim C2 amended: the page-advance cascade tries the five strategies
(goPage, next-href navigation, next-control click, reload + goPage, session
restart + goPage) in exactly this order, stopping at the first success;
a strategy failing by exception is logged before the next is tried, but
strategies 2 and 3 fail silently (no log) when the next-control anchor is
absent.  If the cascade for target page `k` is exhausted, the run stops
with `k` recorded as the unreachable target, the progress cursor last
written for `k - 1`, and `k` never written. -/
theorem advance_cascade_spec :
    (∀ (o1 : Bool) (o2 o3 : TryOut) (o4 o5 : Bool),
      (advanceCascade o1 o2 o3 o4 o5).2.1 =
        [1, 2, 3, 4, 5].take
          (((outsOf o1 o2 o3 o4 o5).takeWhile
              (fun o => !(o == TryOut.succ))).length + 1) ∧
      (advanceCascade o1 o2 o3 o4 o5).1 =
        (outsOf o1 o2 o3 o4 o5).any (fun o => o == TryOut.succ) ∧
      (advanceCascade o1 o2 o3 o4 o5).2.2 =
        (advanceCascade o1 o2 o3 o4 o5).2.1.filter
          (fun j => (outsOf o1 o2 o3 o4 o5).getD (j - 1) TryOut.succ ==
            TryOut.err)) ∧
    (∀ (pats : List Str) (cfg : CrawlCfg) (total count i : Nat) (st : RunState),
      (∀ x ∈ st.saves, x < i) → st.aborted = false →
      (runPages pats cfg total st i count).aborted = true →
      ∃ k, (runPages pats cfg total st i count).abortTarget = some k ∧
        (runPages pats cfg total st i count).saves.getLast? = some (k - 1) ∧
        k ∉ (runPages pats cfg total st i count).saves) := by
  constructor
  · intro o1 o2 o3 o4 o5
    cases o1 <;> cases o2 <;> cases o3 <;> cases o4 <;> cases o5 <;> decide
  · intro pats cfg total count i st h1 h2 h3
    exact runPages_abort pats cfg total count i st h1 h2 h3

def envTrivial : NetEnv := ⟨fun _ => false, fun _ => some [], fun _ => none⟩

def cfgAbort : CrawlCfg :=
  ⟨fun _ => (false, TryOut.err, TryOut.err, false, false), fun _ => [],
    envTrivial, fun h => h, fun _ l => l⟩

/-- Witness for C2 amended: the cascade at all-success outcomes, and a
two-page run whose cascade for page 2 is exhausted: the cursor last holds
page 1 and page 2 is never written. -/
theorem advance_cascade_spec_witness :
    ((advanceCascade true TryOut.succ TryOut.succ true true).2.1 =
      [1, 2, 3, 4, 5].take
        (((outsOf true TryOut.succ TryOut.succ true true).takeWhile
            (fun o => !(o == TryOut.succ))).length + 1) ∧
      (advanceCascade true TryOut.succ TryOut.succ true true).1 =
        (outsOf true TryOut.succ TryOut.succ true true).any
          (fun o => o == TryOut.succ) ∧
      (advanceCascade true TryOut.succ TryOut.succ true true).2.2 =
        (advanceCascade true TryOut.succ TryOut.succ true true).2.1.filter
          (fun j => (outsOf true TryOut.succ TryOut.succ true true).getD (j - 1)
            TryOut.succ == TryOut.err)) ∧
    (∃ k, (runPages [] cfgAbort 2 initState 1 2).abortTarget = some k ∧
      (runPages [] cfgAbort 2 initState 1 2).saves.getLast? = some (k - 1) ∧
      k ∉ (runPages [] cfgAbort 2 initState 1 2).saves) :=
  ⟨advance_cascade_spec.1 true TryOut.succ TryOut.succ true true,
    advance_cascade_spec.2 [] cfgAbort 2 2 1 initState (by decide) rfl (by decide)⟩

/-! ## Claim C4 -/

lemma runPages_happy (pats : List Str) (cfg : CrawlCfg) (total : Nat)
    (hnav : ∀ k, (cfg.nav k).1 = true)
    (hdl : ∀ u, (cfg.env.download u).isSome = true) :
    ∀ (count i : Nat) (st : RunState), i + count = total + 1 →
    (runPages pats cfg total st i count).events =
      st.events ++ (List.range' i count).flatMap
        (fun j => [RunEvent.pageProcessed j, RunEvent.cursorSaved j]) ∧
    (runPages pats cfg total st i count).saves = st.saves ++ List.range' i count ∧
    (runPages pats cfg total st i count).crashed = st.crashed ∧
    (runPages pats cfg total st i count).aborted = st.aborted := by
  intro count
  induction count with
  | zero =>
    intro i st _
    simp [runPages, List.range']
  | succ n ih =>
    intro i st hcnt
    have hcr : (process pats cfg.env cfg.resolve cfg.extResolve st.store
        (cfg.pageAnchors i)).crashed = false :=
      process_no_crash _ _ (fun href _ _ => hdl _)
    by_cases hlt : i < total
    · have hnv : (advanceCascadeT (cfg.nav (i + 1))).1 = true := by
        have h1 := hnav (i + 1)
        simp [advanceCascadeT, advanceCascade, h1]
      simp only [runPages, hcr, Bool.false_eq_true, if_false, hlt, if_true, hnv]
      obtain ⟨he, hs, hc, ha⟩ := ih (i + 1) _ (by omega)
      refine ⟨?_, ?_, by simpa using hc, by simpa using ha⟩
      · rw [he]
        simp [List.range', List.append_assoc]
      · rw [hs]
        simp [List.range', List.append_assoc]
    · have hi : i = total := by omega
      have hn : n = 0 := by omega
      subst hi
      subst hn
      simp [runPages, hcr, hlt, List.range']
/-- Claim C4, as frozen, is refuted here: a run whose last-page control
encodes 13 and whose navigation always succeeds can still write the cursor
fewer than 13 times, because an exception while downloading page 1's only
direct artifact propagates out of `process` and stops the run before the
first cursor write. -/
theorem crawl_crash_no_saves :
    (scraper_run [strL "a.pdf"]
        ⟨fun _ => (true, TryOut.succ, TryOut.succ, true, true),
          fun _ => [strL "http://h/a.pdf"],
          ⟨fun _ => false, fun _ => none, fun _ => none⟩,
          fun h => h, fun _ l => l⟩ 1 (some 13)).saves = [] ∧
    (scraper_run [strL "a.pdf"]
        ⟨fun _ => (true, TryOut.succ, TryOut.succ, true, true),
          fun _ => [strL "http://h/a.pdf"],
          ⟨fun _ => false, fun _ => none, fun _ => none⟩,
          fun h => h, fun _ l => l⟩ 1 (some 13)).saves.length ≠ 13 ∧
    (scraper_run [strL "a.pdf"]
        ⟨fun _ => (true, TryOut.succ, TryOut.succ, true, true),
          fun _ => [strL "http://h/a.pdf"],
          ⟨fun _ => false, fun _ => none, fun _ => none⟩,
          fun h => h, fun _ l => l⟩ 1 (some 13)).crashed = true := by
  refine ⟨by decide, by decide, by decide⟩

/-- Claim C4 amended: for a run starting at page 1 whose last-page control
encodes 13, whose navigation always succeeds and whose artifact downloads
all succeed (no propagating transfer error), the controller processes pages
exactly in the sequence 1..13 and writes the progress cursor exactly 13
times with strictly increasing page numbers, each cursor write coming
immediately after that page's candidates were handed to classification and
transfer, so the cursor is never decremented. -/
theorem crawl_pages_sequence (pats : List Str) (cfg : CrawlCfg)
    (hnav : ∀ k, (cfg.nav k).1 = true)
    (hdl : ∀ u, (cfg.env.download u).isSome = true) :
    (scraper_run pats cfg 1 (some 13)).events =
      (List.range' 1 13).flatMap
        (fun j => [RunEvent.pageProcessed j, RunEvent.cursorSaved j]) ∧
    (scraper_run pats cfg 1 (some 13)).saves = List.range' 1 13 ∧
    (scraper_run pats cfg 1 (some 13)).saves.length = 13 ∧
    List.Chain' (fun a b => a < b) (scraper_run pats cfg 1 (some 13)).saves ∧
    (scraper_run pats cfg 1 (some 13)).crashed = false ∧
    (scraper_run pats cfg 1 (some 13)).aborted = false := by
  obtain ⟨he, hs, hc, ha⟩ :=
    runPages_happy pats cfg 13 hnav hdl 13 1 initState (by omega)
  have he2 : (scraper_run pats cfg 1 (some 13)).events =
      (List.range' 1 13).flatMap
        (fun j => [RunEvent.pageProcessed j, RunEvent.cursorSaved j]) := by
    simpa [scraper_run, totalPages, initState] using he
  have hs2 : (scraper_run pats cfg 1 (some 13)).saves = List.range' 1 13 := by
    simpa [scraper_run, totalPages, initState] using hs
  have hlist : List.range' 1 13 = [1, 2, 3, 4, 5, 6, 7, 8, 9, 10, 11, 12, 13] := rfl
  refine ⟨he2, hs2, ?_, ?_, ?_, ?_⟩
  · rw [hs2]
    rfl
  · rw [hs2, hlist]
    norm_num [List.chain'_cons]
  · simpa [scraper_run, totalPages, initState] using hc
  · simpa [scraper_run, totalPages, initState] using ha

def cfgOk : CrawlCfg :=
  ⟨fun _ => (true, TryOut.succ, TryOut.succ, true, true), fun _ => [],
    envTrivial, fun h => h, fun _ l => l⟩

/-- Witness for C4 amended: an always-successful 13-page run over empty
pages. -/
theorem crawl_pages_sequence_witness :
    (scraper_run [] cfgOk 1 (some 13)).events =
      (List.range' 1 13).flatMap
        (fun j => [RunEvent.pageProcessed j, RunEvent.cursorSaved j]) ∧
    (scraper_run [] cfgOk 1 (some 13)).saves = List.range' 1 13 ∧
    (scraper_run [] cfgOk 1 (some 13)).saves.length = 13 ∧
    List.Chain' (fun a b => a < b) (scraper_run [] cfgOk 1 (some 13)).saves ∧
    (scraper_run [] cfgOk 1 (some 13)).crashed = false ∧
    (scraper_run [] cfgOk 1 (some 13)).aborted = false :=
  crawl_pages_sequence [] cfgOk (fun _ => rfl) (fun _ => rfl)

end GeofilesScraper
